import Mathlib

/-!
Verification development for the query/pagination/branch-resolution/hydration
core of the `client-ts` repository.

The TypeScript sources are shallowly embedded:
* JS/JSON values are modelled by the mutual inductive `J` / `JList` / `JFields`,
  where `JFields` keeps the insertion order of object keys, exactly as JS
  objects do.  Property assignment of `undefined` is modelled as a no-op: a
  key holding `undefined` is invisible to `JSON.stringify` and to the `??`
  operator, which are the only observers used by the embedded code.
* `packages/client/src/schema/query.ts` (the modern immutable `Query` builder)
  is embedded as `Query` together with `mkQueryData` (the constructor's
  per-key filter merging), the builder methods, and `Query.key`.
* `packages/client/src/client.ts` (the legacy client) is embedded as the
  `Legacy*` definitions: the `Page` cursor navigation, `getBranch`,
  `RestRepository.create` and `BaseClient.initObject`.
* The HTTP transport and the server are external collaborators (spec section 6);
  where a theorem needs server behaviour, an abstract transport function or a
  cursor-faithful server model is used.
-/

/-! ## JS/JSON value model -/

mutual
inductive J where
  | jnull : J
  | jbool (b : Bool) : J
  | jnum (n : Int) : J
  | jstr (s : String) : J
  | jarr (xs : JList) : J
  | jobj (fs : JFields) : J
deriving DecidableEq
inductive JList where
  | nil : JList
  | cons (hd : J) (tl : JList) : JList
deriving DecidableEq
inductive JFields where
  | nil : JFields
  | cons (k : String) (v : J) (tl : JFields) : JFields
deriving DecidableEq
end

def JList.append : JList → JList → JList
  | .nil, ys => ys
  | .cons x tl, ys => .cons x (JList.append tl ys)

/-- Reading a property of a JS object: the value of the first (and in a real JS
object, only) entry with the given key, or `none` for `undefined`. -/
def JFields.get : JFields → String → Option J
  | .nil, _ => none
  | .cons k v tl, key => if k = key then some v else JFields.get tl key

/-- `Object.keys(value).find((col) => col === key)` as a Bool. -/
def JFields.hasKey (fs : JFields) (key : String) : Bool :=
  (fs.get key).isSome

/-- In-place update of the first entry with the given key (JS assignment to an
existing property keeps its position in the key order). -/
def JFields.setFirst : JFields → String → J → JFields
  | .nil, _, _ => .nil
  | .cons k v tl, key, val =>
    if k = key then .cons k val tl else .cons k v (JFields.setFirst tl key val)

def JFields.append : JFields → JFields → JFields
  | .nil, ys => ys
  | .cons k v tl, ys => .cons k v (JFields.append tl ys)

/-- JS property assignment `o[key] = val` where `val : Option J` models a
possibly-`undefined` right hand side.  Assigning a defined value updates an
existing key in place or appends a new key; assigning `undefined` is modelled
as a no-op (see the module comment). -/
def JFields.set (fs : JFields) (key : String) : Option J → JFields
  | none => fs
  | some val => if fs.hasKey key then fs.setFirst key val else fs.append (.cons key val .nil)

/-- JS truthiness of a possibly-`undefined` JS value. -/
def truthyJ : Option J → Bool
  | none => false
  | some .jnull => false
  | some (.jbool b) => b
  | some (.jnum n) => n != 0
  | some (.jstr s) => s != ""
  | some (.jarr _) => true
  | some (.jobj _) => true

/-! ## JSON.stringify and toBase64

`JSON.stringify` on the values produced by the query builder: object keys are
serialized in insertion order; keys are omitted only when absent (which is how
`undefined`-valued keys are modelled, see above).  The embedded strings are
plain ASCII identifiers and never need escaping.

`toBase64` is `util/lang.ts`'s `btoa`-based helper: standard base64 of the
code points of an ASCII string. -/

mutual
def serialize : J → String
  | .jnull => "null"
  | .jbool b => if b then "true" else "false"
  | .jnum n => toString n
  | .jstr s => "\"" ++ s ++ "\""
  | .jarr xs => "[" ++ serializeList xs ++ "]"
  | .jobj fs => "\x7b" ++ serializeFields fs ++ "\x7d"
def serializeList : JList → String
  | .nil => ""
  | .cons x .nil => serialize x
  | .cons x (.cons y tl) => serialize x ++ "," ++ serializeList (.cons y tl)
def serializeFields : JFields → String
  | .nil => ""
  | .cons k v .nil => "\"" ++ k ++ "\":" ++ serialize v
  | .cons k v (.cons k2 v2 tl) =>
      "\"" ++ k ++ "\":" ++ serialize v ++ "," ++ serializeFields (.cons k2 v2 tl)
end

def base64Alphabet : List Char :=
  "ABCDEFGHIJKLMNOPQRSTUVWXYZabcdefghijklmnopqrstuvwxyz0123456789+/".data

def base64Char (n : Nat) : Char := base64Alphabet.getD n 'A'

def toBase64Bytes : List Nat → List Char
  | [] => []
  | [b1] => [base64Char (b1 / 4), base64Char (b1 % 4 * 16), '=', '=']
  | [b1, b2] => [base64Char (b1 / 4), base64Char (b1 % 4 * 16 + b2 / 16), base64Char (b2 % 16 * 4), '=']
  | b1 :: b2 :: b3 :: rest =>
      base64Char (b1 / 4) :: base64Char (b1 % 4 * 16 + b2 / 16) ::
        base64Char (b2 % 16 * 4 + b3 / 64) :: base64Char (b3 % 64) :: toBase64Bytes rest

def toBase64 (s : String) : String := String.mk (toBase64Bytes (s.data.map Char.toNat))

/-! ## The modern Query builder (packages/client/src/schema/query.ts) -/

/-- The fully resolved `#data` of a `Query`: after the constructor has run,
`filter` and `columns` are always set (`filter` possibly the empty object,
`columns` defaulting to `['*']`), the rest may be `undefined`. -/
structure QueryData where
  filter : JFields
  sort : Option J
  columns : List String
  pagination : Option J
  cache : Option Nat
deriving DecidableEq

/-- The `Partial<QueryOptions>` argument `data` of the `Query` constructor:
every piece may be absent. -/
structure QOpt where
  filter : Option JFields
  sort : Option J
  columns : Option (List String)
  pagination : Option J
  cache : Option Nat

def QOpt.empty : QOpt := ⟨none, none, none, none, none⟩

/-- Lines 66-70 of query.ts:
`this.#data.filter = data.filter ?? parent?.filter ?? {};` followed by the
four per-combinator assignments
`this.#data.filter.$K = data.filter?.$K ?? parent?.filter?.$K`. -/
def resolveFilter (dataFilter : Option JFields) (parent : Option QueryData) : JFields :=
  let base := dataFilter.getD (match parent with | some p => p.filter | none => .nil)
  let pick := fun (k : String) =>
    (dataFilter.bind (fun f => f.get k)) <|> (parent.bind (fun p => p.filter.get k))
  (((base.set "$any" (pick "$any")).set "$all" (pick "$all")).set "$not"
      (pick "$not")).set "$none" (pick "$none")

/-- The `Query` constructor, lines 66-74 of query.ts. -/
def mkQueryData (d : QOpt) (parent : Option QueryData) : QueryData where
  filter := resolveFilter d.filter parent
  sort := d.sort <|> parent.bind (fun p => p.sort)
  columns := (d.columns <|> parent.map (fun p => p.columns)).getD ["*"]
  pagination := d.pagination <|> parent.bind (fun p => p.pagination)
  cache := d.cache <|> parent.bind (fun p => p.cache)

structure Query where
  table : String
  data : QueryData
deriving DecidableEq

/-- `new Query(repo, table, {})`: the base query a repository hands out. -/
def Query.base (table : String) : Query := ⟨table, mkQueryData QOpt.empty none⟩

/-- `[x].flat()` after `x ?? []`: an array contributes its elements, a
non-array value contributes itself, `undefined` contributes nothing. -/
def flatOne : Option J → JList
  | some (.jarr xs) => xs
  | some v => .cons v .nil
  | none => .nil

/-- `compact` from util/lang.ts composed with the flattening above: it also
drops `null` entries (the builder never stores any). -/
def JList.removeNull : JList → JList
  | .nil => .nil
  | .cons .jnull tl => JList.removeNull tl
  | .cons v tl => .cons v (JList.removeNull tl)

def flatCompact (x : Option J) : JList := (flatOne x).removeNull

/-- `Query.filter(column, value)` (the two-argument overload, lines 160-164):
`$all = compact([this.#data.filter?.$all].flat().concat([\x7b [a]: b \x7d]))`. -/
def Query.filter (q : Query) (column : String) (value : J) : Query :=
  let newAll := (flatCompact (q.data.filter.get "$all")).append
    (.cons (.jobj (.cons column value .nil)) .nil)
  ⟨q.table, mkQueryData { QOpt.empty with filter := some (.cons "$all" (.jarr newAll) .nil) }
    (some q.data)⟩

/-- `Query.filter(constraintsObject)` (the one-argument overload, lines 155-159):
each entry becomes its own single-key constraint object, appended to `$all`. -/
def Query.filterObj (q : Query) (constraints : List (String × J)) : Query :=
  let newAll := (flatCompact (q.data.filter.get "$all")).append
    (constraintObjs constraints)
  ⟨q.table, mkQueryData { QOpt.empty with filter := some (.cons "$all" (.jarr newAll) .nil) }
    (some q.data)⟩
where constraintObjs : List (String × J) → JList
  | [] => .nil
  | (c, v) :: rest => .cons (.jobj (.cons c v .nil)) (constraintObjs rest)

/-- `queries.map((query) => query.getQueryOptions().filter ?? \x7b\x7d)`:
the listed subqueries' whole filter objects. -/
def subFilters : List Query → JList
  | [] => .nil
  | q :: rest => .cons (.jobj q.data.filter) (subFilters rest)

/-- `Query.any(...queries)`, lines 102-105. -/
def Query.any (q : Query) (qs : List Query) : Query :=
  ⟨q.table, mkQueryData { QOpt.empty with filter := some (.cons "$any" (.jarr (subFilters qs)) .nil) }
    (some q.data)⟩

/-- `Query.all(...queries)`, lines 112-115. -/
def Query.all (q : Query) (qs : List Query) : Query :=
  ⟨q.table, mkQueryData { QOpt.empty with filter := some (.cons "$all" (.jarr (subFilters qs)) .nil) }
    (some q.data)⟩

/-- `Query.not(...queries)`, lines 122-125. -/
def Query.not (q : Query) (qs : List Query) : Query :=
  ⟨q.table, mkQueryData { QOpt.empty with filter := some (.cons "$not" (.jarr (subFilters qs)) .nil) }
    (some q.data)⟩

/-- `Query.none(...queries)`, lines 132-135. -/
def Query.none (q : Query) (qs : List Query) : Query :=
  ⟨q.table, mkQueryData { QOpt.empty with filter := some (.cons "$none" (.jarr (subFilters qs)) .nil) }
    (some q.data)⟩

/-- `Query.sort(column, direction)`, lines 173-177. -/
def Query.sortBy (q : Query) (column : String) (direction : String) : Query :=
  let originalSort := flatOne q.data.sort
  let sort := originalSort.append
    (.cons (.jobj (.cons "column" (.jstr column) (.cons "direction" (.jstr direction) .nil))) .nil)
  ⟨q.table, mkQueryData { QOpt.empty with sort := some (.jarr sort) } (some q.data)⟩

/-- `Query.select(columns)`, lines 184-191. -/
def Query.select (q : Query) (columns : List String) : Query :=
  ⟨q.table, mkQueryData { QOpt.empty with columns := some columns } (some q.data)⟩

/-- `Query.cache(ttl)`, lines 295-297. -/
def Query.cacheTTL (q : Query) (ttl : Nat) : Query :=
  ⟨q.table, mkQueryData { QOpt.empty with cache := some ttl } (some q.data)⟩

def strList : List String → JList
  | [] => .nil
  | s :: rest => .cons (.jstr s) (strList rest)

/-- `Query.key()`, lines 91-95:
`const \x7b columns = [], filter = \x7b\x7d, sort = [], pagination = \x7b\x7d \x7d = this.#data;`
`return toBase64(JSON.stringify(\x7b columns, filter, sort, pagination \x7d));` -/
def Query.key (q : Query) : String :=
  toBase64 (serialize (.jobj
    (.cons "columns" (.jarr (strList q.data.columns))
      (.cons "filter" (.jobj q.data.filter)
        (.cons "sort" (q.data.sort.getD (.jarr .nil))
          (.cons "pagination" (q.data.pagination.getD (.jobj .nil)) .nil))))))

/-! ## Pagination engine (modern query.ts, getIterator / getAll)

`getPaginated` goes through the repository and the transport; both are
external collaborators here (schema/repository.ts is not among the sources).
A transport is an abstract function from the pagination options the code
sends — `\x7b size: batchSize, offset \x7d` — to the page of the wire
response, `\x7b records, meta.page.more \x7d` (spec section 6). -/

/-- Modelled from the spec: `PAGINATION_MAX_SIZE` is defined in
schema/pagination.ts, which is not among the sources; the spec describes it as
"a fixed maximum page size per request (a constant ceiling)" used as the
default `batchSize` of `getAll`. -/
def PAGINATION_MAX_SIZE : Nat := 200

structure PageResp (R : Type) where
  records : List R
  more : Bool

/-- `Query.getIterator` (lines 216-231): starting at `offset = 0`, request
pages of `batchSize`, advance `offset += batchSize`, stop after the first
page with `more = false`.  Returns the yielded batches and the log of
`(size, offset)` requests actually issued; `none` when the fuel runs out
before the loop ends. -/
def getIteratorAux (t : Nat → Nat → PageResp R) (batchSize : Nat) :
    Nat → Nat → Option (List (List R) × List (Nat × Nat))
  | _, 0 => none
  | offset, fuel + 1 =>
    let resp := t batchSize offset
    if resp.more then
      match getIteratorAux t batchSize (offset + batchSize) fuel with
      | none => none
      | some (pages, reqs) => some (resp.records :: pages, (batchSize, offset) :: reqs)
    else some ([resp.records], [(batchSize, offset)])

/-- `Query.getAll` (lines 260-272) with the default
`batchSize = PAGINATION_MAX_SIZE`: concatenates the iterator's batches. -/
def getAll (t : Nat → Nat → PageResp R) (fuel : Nat) :
    Option (List R × List (Nat × Nat)) :=
  match getIteratorAux t PAGINATION_MAX_SIZE 0 fuel with
  | none => none
  | some (pages, reqs) => some (pages.flatten, reqs)

/-! ## Legacy pagination (client.ts, Page / Query) -/

/-- `QueryMeta`: `\x7b page: \x7b cursor, more \x7d \x7d` with the cursor kept
opaque (type parameter `κ`). -/
structure LegacyMeta (κ : Type) where
  cursor : κ
  more : Bool

/-- The `page` request options `\x7b size?, offset?, after?, before?, first?, last? \x7d`. -/
structure LegacyPageReq (κ : Type) where
  size : Option Nat
  offset : Option Nat
  after : Option κ
  before : Option κ
  first : Option κ
  last : Option κ

structure LegacyResp (κ R : Type) where
  meta : LegacyMeta κ
  records : List R

/-- The transport behind `queryTable` for one fixed legacy query (its filter
and sort are burned in); it receives `options?.page`. -/
def LegacyTransport (κ R : Type) := Option (LegacyPageReq κ) → LegacyResp κ R

/-- A returned `Page` (client.ts lines 259-290): it keeps `meta` and `records`
and can re-issue requests through its query's transport. -/
structure LegacyPage (κ R : Type) where
  meta : LegacyMeta κ
  records : List R

/-- `Query.getPaginated` (lines 426-451) restricted to its pagination
behaviour: send `options?.page`, wrap the response in a `Page`. -/
def legacyGetPaginated (t : LegacyTransport κ R) (page : Option (LegacyPageReq κ)) :
    LegacyPage κ R :=
  let resp := t page
  ⟨resp.meta, resp.records⟩

/-- `Page.nextPage` (lines 270-272):
`this.query.getPaginated(\x7b page: \x7b size, offset, after: this.meta.page.cursor \x7d \x7d)`. -/
def LegacyPage.nextPage (p : LegacyPage κ R) (t : LegacyTransport κ R)
    (size offset : Option Nat) : LegacyPage κ R :=
  legacyGetPaginated t (some ⟨size, offset, some p.meta.cursor, none, none, none⟩)

/-- `Page.previousPage` (lines 274-276): same with `before: this.meta.page.cursor`. -/
def LegacyPage.previousPage (p : LegacyPage κ R) (t : LegacyTransport κ R)
    (size offset : Option Nat) : LegacyPage κ R :=
  legacyGetPaginated t (some ⟨size, offset, none, some p.meta.cursor, none, none⟩)

/-- Modelled from the spec: the server side of the wire contract (section 6),
an external collaborator.  A cursor-faithful server over a fixed row list:
the cursor is the position reached so far, `after` resumes there, `more`
reports whether rows remain. -/
def SERVER_DEFAULT_SIZE : Nat := 20

def cursorServer (rows : List R) : LegacyTransport Nat R := fun req =>
  let pos := match req with
    | none => 0
    | some r => match r.after with | some c => c | none => 0
  let size := match req with
    | none => SERVER_DEFAULT_SIZE
    | some r => r.size.getD SERVER_DEFAULT_SIZE
  let recs := (rows.drop pos).take size
  let newPos := pos + recs.length
  ⟨⟨newPos, decide (newPos < rows.length)⟩, recs⟩

/-! ## Branch resolution (client.ts, BaseClient.getBranch, lines 752-771) -/

/-- A `BranchStrategy`: a literal value (string, `undefined` or `null`,
the latter two collapsed to `none`) or an async resolver; `v` is the value
the resolver settles to. -/
inductive BranchStrategy where
  | value (v : Option String)
  | builder (v : Option String)

def isBranchStrategyBuilder : BranchStrategy → Bool
  | .value _ => false
  | .builder _ => true

/-- `isBranchStrategyBuilder(strategy) ? await strategy() : strategy`. -/
def evaluateBranch : BranchStrategy → Option String
  | .value v => v
  | .builder v => v

/-- JS truthiness of a `BranchStrategyValue`: `undefined`, `null` and the
empty string are falsy. -/
def truthyS : Option String → Bool
  | some s => s != ""
  | none => false

/-- The client's single mutable field `private branch: BranchStrategyValue`. -/
structure ClientBranchState where
  branch : Option String

/-- The `for await (const strategy of strategies)` loop: returns the result,
the new memo field, and how many strategies were evaluated. -/
def getBranchLoop (memo : Option String) :
    List BranchStrategy → Nat → Except String String × Option String × Nat
  | [], n => (Except.error "Unable to resolve branch value", memo, n)
  | s :: rest, n =>
    let b := evaluateBranch s
    if truthyS b then (Except.ok (b.getD ""), b, n + 1)
    else getBranchLoop memo rest (n + 1)

/-- `BaseClient.getBranch`: `if (this.branch) return this.branch;` then the
strategy loop, storing the winner in `this.branch`; throws when the loop
finishes without a truthy value. -/
def getBranch (st : ClientBranchState) (strategies : List BranchStrategy) :
    Except String String × ClientBranchState × Nat :=
  if truthyS st.branch then (Except.ok (st.branch.getD ""), st, 0)
  else
    match getBranchLoop st.branch strategies 0 with
    | (r, m, n) => (r, ⟨m⟩, n)

/-- `Query.getPaginated` resolves the branch before `queryTable` is invoked;
the second component counts the transport requests actually issued. -/
def legacyQueryWithBranch (st : ClientBranchState) (strategies : List BranchStrategy)
    (t : String → LegacyResp Nat R) : Except String (LegacyPage Nat R) × Nat :=
  match getBranch st strategies with
  | (Except.error e, _, _) => (Except.error e, 0)
  | (Except.ok b, _, _) => (Except.ok ⟨(t b).meta, (t b).records⟩, 1)

/-! ## RestRepository.create (client.ts, lines 569-587) -/

/-- Errors surfaced by `create`: unwrapped transport errors, or the
application-level `new Error('The server failed to save the record')`. -/
inductive CreateError where
  | transport (message : String)
  | failedSave (message : String)
deriving DecidableEq

/-- `RestRepository.create`: run the insert, then the follow-up
`this.read(response.id)` (whose signature is `Promise<T | null>`); a `null`
follow-up read raises the failed-save error, otherwise the record read back
is returned. -/
def RestRepository.create (insertResp : Except String String)
    (readResp : String → Except String (Option R)) : Except CreateError R :=
  match insertResp with
  | .error e => .error (.transport e)
  | .ok id =>
    match readResp id with
    | .error e => .error (.transport e)
    | .ok none => .error (.failedSave "The server failed to save the record")
    | .ok (some r) => .ok r

/-! ## Record hydration (client.ts, BaseClient.initObject, lines 685-728) -/

/-- The per-table link map `Links = Record<string, Array<string[]>>`. -/
abbrev Links := List (String × List (String × String))

def assocLookup : List (String × α) → String → Option α
  | [], _ => none
  | (k, v) :: rest, key => if k = key then some v else assocLookup rest key

/-- `this.links[table] || []`. -/
def linksFor (links : Links) (table : String) : List (String × String) :=
  (assocLookup links table).getD []

/-! Hydrated values: a raw value left unchanged, a recursively hydrated
record (frozen, with `read`/`update`/`delete` bound to its table), or the
lazy `\x7b id, get \x7d` link accessor object. -/
mutual
inductive HVal where
  | plain (v : J) : HVal
  | record (table : String) (fields : HFields) : HVal
  | linkRef (id : J) : HVal
deriving DecidableEq
inductive HFields where
  | nil : HFields
  | cons (k : String) (v : HVal) (tl : HFields) : HFields
deriving DecidableEq
end

def HFields.get : HFields → String → Option HVal
  | .nil, _ => none
  | .cons k v tl, key => if k = key then some v else HFields.get tl key

/-! `BaseClient.initObject`: copy the raw row, transform each link field,
bind `read`/`update`/`delete` over the table, freeze.  The link map of a real
schema binds each field at most once, so the source's loop over
`tableLinks` is equivalently modelled as a pass over the fields, looking
each field up in the link map. -/
mutual
def initFields (links : Links) (tableLinks : List (String × String)) :
    JFields → HFields
  | .nil => .nil
  | .cons k v tl =>
    .cons k (initField links tableLinks k v) (initFields links tableLinks tl)
/-- One link-field transformation: `value && typeof value === 'object'` admits
only objects (arrays carry no `id` key and fall through unchanged either way);
then `Object.keys(value).find((col) => col === 'id')` selects the recursive
`this.initObject(linkTable, value)` call (inlined here so the recursion is
structural), `else if (id)` would install the lazy `\x7b id, get \x7d` object. -/
def initField (links : Links) (tableLinks : List (String × String))
    (k : String) (v : J) : HVal :=
  match assocLookup tableLinks k with
  | none => .plain v
  | some linkTable =>
    match v with
    | .jobj vfs =>
      if vfs.hasKey "id" then
        .record linkTable (initFields links (linksFor links linkTable) vfs)
      else if truthyJ (vfs.get "id") then .linkRef ((vfs.get "id").getD .jnull)
      else .plain v
    | _ => .plain v
end

def initObject (links : Links) (table : String) (fields : JFields) : HVal :=
  .record table (initFields links (linksFor links table) fields)

/-! No hydrated value contains the lazy `\x7b id, get \x7d` accessor object. -/
mutual
def HVal.noLinkRef : HVal → Bool
  | .plain _ => true
  | .record _ fs => fs.noLinkRef
  | .linkRef _ => false
def HFields.noLinkRef : HFields → Bool
  | .nil => true
  | .cons _ v tl => v.noLinkRef && tl.noLinkRef
end

/-! ## Concrete instances used by witnesses and counterexamples -/

def gt30 : J := .jobj (.cons "$gt" (.jnum 30) .nil)

def c2Q : Query := (Query.base "users").filter "age" gt30
def c2A : Query := (Query.base "users").filter "x" (.jnum 1)
def c2B : Query := (Query.base "users").filter "y" (.jnum 2)

def c4Q1 : Query := ((Query.base "users").filter "a" (.jnum 1)).any [Query.base "users"]
def c4Q2 : Query := ((Query.base "users").any [Query.base "users"]).filter "a" (.jnum 1)

def c5T : Nat → Nat → PageResp Nat :=
  fun _ offset => ⟨[offset], decide (offset < 2 * PAGINATION_MAX_SIZE)⟩

def c1Rows : List Nat := [10]
def c1Req : Option (LegacyPageReq Nat) := some ⟨some 5, none, none, none, none, none⟩

def c7Strategies : List BranchStrategy := [.value none, .value (some ""), .builder (some "main")]
def c7Empty : List BranchStrategy := [.value none, .builder (some "")]
def c7T : String → LegacyResp Nat Nat := fun _ => ⟨⟨0, false⟩, []⟩
def c8Strategies : List BranchStrategy := [.value (some "main")]
def c8Strategies2 : List BranchStrategy := [.builder (some "other")]

def c9Insert : Except String String := Except.ok "rec1"
def c9ReadNone : String → Except String (Option Nat) := fun _ => Except.ok none
def c9ReadSome : String → Except String (Option Nat) := fun _ => Except.ok (some 7)

def c3Links : Links := [("users", [("author", "authors")])]
def c3Row : JFields :=
  .cons "id" (.jstr "1")
    (.cons "xata" (.jobj (.cons "version" (.jnum 0) .nil))
      (.cons "author" (.jobj (.cons "id" (.jstr "a1") .nil)) .nil))

/-! ## Helper lemmas about the JS object model -/

theorem opt_orElse_none (x : Option α) : (x <|> none) = x := by
  cases x <;> rfl

theorem JFields.get_eq_none_of_hasKey_eq_false {fs : JFields} {k : String}
    (h : fs.hasKey k = false) : fs.get k = none := by
  unfold JFields.hasKey at h
  cases hg : fs.get k with
  | none => rfl
  | some v => rw [hg] at h; simp at h

theorem JFields.get_append : ∀ (fs gs : JFields) (key : String),
    (fs.append gs).get key = ((fs.get key) <|> gs.get key)
  | .nil, gs, key => by simp [JFields.append, JFields.get]
  | .cons k v tl, gs, key => by
    by_cases h : k = key
    · simp [JFields.append, JFields.get, h]
    · simp [JFields.append, JFields.get, h, JFields.get_append tl gs key]

theorem JFields.get_setFirst_self : ∀ (fs : JFields) (k : String) (v : J),
    (fs.setFirst k v).get k = if fs.hasKey k then some v else none
  | .nil, k, v => by simp [JFields.setFirst, JFields.get, JFields.hasKey]
  | .cons k0 v0 tl, k, v => by
    by_cases h : k0 = k
    · simp [JFields.setFirst, JFields.get, JFields.hasKey, h]
    · simp [JFields.setFirst, JFields.get, JFields.hasKey, h,
        JFields.get_setFirst_self tl k v]

theorem JFields.get_setFirst_ne : ∀ (fs : JFields) (k : String) (v : J) (k' : String),
    k' ≠ k → (fs.setFirst k v).get k' = fs.get k'
  | .nil, _, _, _, _ => by simp [JFields.setFirst]
  | .cons k0 v0 tl, k, v, k', h => by
    by_cases h0 : k0 = k
    · have hne : ¬ (k = k') := fun hh => h hh.symm
      simp [JFields.setFirst, JFields.get, h0, hne]
    · simp [JFields.setFirst, JFields.get, h0, JFields.get_setFirst_ne tl k v k' h]

theorem JFields.get_set (fs : JFields) (k : String) (v : Option J) (k' : String) :
    (fs.set k v).get k' = if k' = k then (v <|> fs.get k') else fs.get k' := by
  cases v with
  | none =>
    simp only [JFields.set, Option.none_orElse]
    by_cases h : k' = k <;> simp [h]
  | some val =>
    simp only [JFields.set]
    by_cases hk : fs.hasKey k
    · simp only [hk, if_true]
      by_cases h : k' = k
      · subst h; simp [JFields.get_setFirst_self, hk]
      · simp [JFields.get_setFirst_ne fs k val k' h, h]
    · simp only [hk, Bool.false_eq_true, if_false]
      rw [JFields.get_append]
      by_cases h : k' = k
      · subst h
        rw [JFields.get_eq_none_of_hasKey_eq_false (by simpa using hk)]
        simp [JFields.get]
      · have hkk : ¬ (k = k') := fun hh => h hh.symm
        simp [JFields.get, hkk, opt_orElse_none, h]

/-! ## C6: filter appends to the $all conjunction -/

/-- Claim C6: for every Query `q` and constraint, `q.filter(column, value)`
returns a new Query whose filter's `$all` list equals `q`'s `$all` list with
the single-key constraint object appended (never replaced), while the
`$any`/`$not`/`$none` combinators, the sort, columns, pagination and cache
options of the result are unchanged from `q`'s; the builder returns a fresh
value, leaving `q` itself unmodified. -/
theorem C6_filter_appends_to_all (q : Query) (column : String) (value : J) :
    ((q.filter column value).data.filter.get "$all" =
        some (.jarr ((flatCompact (q.data.filter.get "$all")).append
          (.cons (.jobj (.cons column value .nil)) .nil))))
    ∧ (q.filter column value).data.filter.get "$any" = q.data.filter.get "$any"
    ∧ (q.filter column value).data.filter.get "$not" = q.data.filter.get "$not"
    ∧ (q.filter column value).data.filter.get "$none" = q.data.filter.get "$none"
    ∧ (q.filter column value).data.sort = q.data.sort
    ∧ (q.filter column value).data.columns = q.data.columns
    ∧ (q.filter column value).data.pagination = q.data.pagination
    ∧ (q.filter column value).data.cache = q.data.cache
    ∧ (q.filter column value).table = q.table := by
  refine ⟨?_, ?_, ?_, ?_, ?_, ?_, ?_, ?_, ?_⟩ <;>
    simp [Query.filter, mkQueryData, resolveFilter, QOpt.empty, JFields.get_set,
      JFields.get, opt_orElse_none]

/-! ## C2: any/all/not/none merge per key, they do not replace the filter -/

/-- Claim C2 counterexample: with `c2Q = users.filter("age", gt(30))` and
subqueries `c2A`, `c2B`, the top-level filter of `c2Q.any(c2A, c2B)` is not
exactly the single-key object with the two subquery filter trees under
`$any`: the constructor inherits `c2Q`'s prior `$all` conjunction into the
result, so the claim's "discarding Q's own prior $all" fails. -/
theorem C2_counterexample :
    (Query.any c2Q [c2A, c2B]).data.filter ≠
      JFields.cons "$any" (J.jarr (subFilters [c2A, c2B])) JFields.nil
    ∧ (Query.any c2Q [c2A, c2B]).data.filter.get "$all" =
        some (J.jarr (JList.cons (J.jobj (JFields.cons "age" gt30 JFields.nil)) JList.nil)) := by
  exact ⟨by decide, by decide⟩

/-- Claim C2 (amended): `q.any(...qs)` sets the filter's `$any` key to the
array of the listed subqueries' filter trees, replacing only a prior `$any`;
the other top-level combinator keys (`$all`, `$not`, `$none`) are inherited
from `q` unchanged, and likewise `all`/`not`/`none` each replace only their
own key and inherit the other three; sort, columns, pagination and cache are
inherited as well. -/
theorem C2_combinators_replace_own_key_only (q : Query) (qs : List Query) :
    ((q.any qs).data.filter.get "$any" = some (.jarr (subFilters qs))
      ∧ (q.any qs).data.filter.get "$all" = q.data.filter.get "$all"
      ∧ (q.any qs).data.filter.get "$not" = q.data.filter.get "$not"
      ∧ (q.any qs).data.filter.get "$none" = q.data.filter.get "$none")
    ∧ ((q.all qs).data.filter.get "$all" = some (.jarr (subFilters qs))
      ∧ (q.all qs).data.filter.get "$any" = q.data.filter.get "$any"
      ∧ (q.all qs).data.filter.get "$not" = q.data.filter.get "$not"
      ∧ (q.all qs).data.filter.get "$none" = q.data.filter.get "$none")
    ∧ ((q.not qs).data.filter.get "$not" = some (.jarr (subFilters qs))
      ∧ (q.not qs).data.filter.get "$any" = q.data.filter.get "$any"
      ∧ (q.not qs).data.filter.get "$all" = q.data.filter.get "$all"
      ∧ (q.not qs).data.filter.get "$none" = q.data.filter.get "$none")
    ∧ ((q.none qs).data.filter.get "$none" = some (.jarr (subFilters qs))
      ∧ (q.none qs).data.filter.get "$any" = q.data.filter.get "$any"
      ∧ (q.none qs).data.filter.get "$all" = q.data.filter.get "$all"
      ∧ (q.none qs).data.filter.get "$not" = q.data.filter.get "$not")
    ∧ ((q.any qs).data.sort = q.data.sort
      ∧ (q.any qs).data.columns = q.data.columns
      ∧ (q.any qs).data.pagination = q.data.pagination
      ∧ (q.any qs).data.cache = q.data.cache) := by
  refine ⟨⟨?_, ?_, ?_, ?_⟩, ⟨?_, ?_, ?_, ?_⟩, ⟨?_, ?_, ?_, ?_⟩, ⟨?_, ?_, ?_, ?_⟩,
    ?_, ?_, ?_, ?_⟩ <;>
    simp [Query.any, Query.all, Query.not, Query.none, mkQueryData, resolveFilter,
      QOpt.empty, JFields.get_set, JFields.get, opt_orElse_none]

/-! ## C4: the cache key -/

/-- Claim C4 counterexample: `c4Q1 = users.filter("a",1).any(base)` and
`c4Q2 = users.any(base).filter("a",1)` resolve to the same table, columns,
filter content (same `$all`, `$any`, `$not`, `$none`), sort and pagination,
yet their cache keys differ: `JSON.stringify` serializes the filter object's
keys in insertion order, and the two chain orders insert `$all`/`$any` in
opposite orders. -/
theorem C4_counterexample :
    Query.key c4Q1 ≠ Query.key c4Q2
    ∧ c4Q1.data.filter.get "$all" = c4Q2.data.filter.get "$all"
    ∧ c4Q1.data.filter.get "$any" = c4Q2.data.filter.get "$any"
    ∧ c4Q1.data.filter.get "$not" = c4Q2.data.filter.get "$not"
    ∧ c4Q1.data.filter.get "$none" = c4Q2.data.filter.get "$none"
    ∧ c4Q1.data.sort = c4Q2.data.sort
    ∧ c4Q1.data.columns = c4Q2.data.columns
    ∧ c4Q1.data.pagination = c4Q2.data.pagination
    ∧ c4Q1.table = c4Q2.table := by
  decide

/-- Claim C4 (amended): `key()` is a deterministic serialization of the
query's resolved `\x7bcolumns, filter, sort, pagination\x7d` only — the table
is not part of the fingerprint — and it is a function of that resolved data
including the filter object's key insertion order; two Query values with
identical resolved data produce identical cache keys whatever their tables. -/
theorem C4_key_depends_only_on_resolved_data (q1 q2 : Query)
    (h : q1.data = q2.data) : q1.key = q2.key := by
  simp [Query.key, h]

/-- Witness for C4 (amended): two queries over different tables with the same
resolved data share the cache key. -/
theorem C4_key_depends_only_on_resolved_data_witness :
    Query.key (Query.base "users") = Query.key ⟨"posts", (Query.base "users").data⟩ :=
  C4_key_depends_only_on_resolved_data (Query.base "users")
    ⟨"posts", (Query.base "users").data⟩ rfl

/-! ## C5: getAll over a more-sequence [true, true, false] -/

/-- Claim C5: for every transport whose pages at the offsets `getAll` visits
report the `more` sequence `[true, true, false]`, `getAll` (with its default
`batchSize = PAGINATION_MAX_SIZE`) issues exactly the three requests
`(size, offset) = (S, 0), (S, S), (S, 2*S)` and returns the three pages'
records concatenated in order; a fourth request is never issued and every
request's page size is the maximum-page-size constant. -/
theorem C5_getAll_three_pages {R : Type} (t : Nat → Nat → PageResp R) (fuel : Nat)
    (hfuel : 3 ≤ fuel)
    (h0 : (t PAGINATION_MAX_SIZE 0).more = true)
    (h1 : (t PAGINATION_MAX_SIZE PAGINATION_MAX_SIZE).more = true)
    (h2 : (t PAGINATION_MAX_SIZE (2 * PAGINATION_MAX_SIZE)).more = false) :
    getAll t fuel = some
      ((t PAGINATION_MAX_SIZE 0).records ++
        (t PAGINATION_MAX_SIZE PAGINATION_MAX_SIZE).records ++
        (t PAGINATION_MAX_SIZE (2 * PAGINATION_MAX_SIZE)).records,
       [(PAGINATION_MAX_SIZE, 0), (PAGINATION_MAX_SIZE, PAGINATION_MAX_SIZE),
        (PAGINATION_MAX_SIZE, 2 * PAGINATION_MAX_SIZE)]) := by
  obtain ⟨k, rfl⟩ : ∃ k, fuel = k + 1 + 1 + 1 := ⟨fuel - 3, by omega⟩
  rw [Nat.two_mul] at h2 ⊢
  simp [getAll, getIteratorAux, h0, h1, h2]

/-- Witness for C5 at a concrete transport: three requests, concatenated
records, no fourth request. -/
theorem C5_getAll_three_pages_witness :
    getAll c5T 3 = some ([0, 200, 400], [(200, 0), (200, 200), (200, 400)]) := by
  have h := C5_getAll_three_pages c5T 3 (by omega) (by decide) (by decide) (by decide)
  simpa [c5T, PAGINATION_MAX_SIZE] using h

/-! ## C1: cursor threading and terminal pages -/

theorem cursorServer_length_le_cursor {R : Type} (rows : List R)
    (req : Option (LegacyPageReq Nat))
    (h : (cursorServer rows req).meta.more = false) :
    rows.length ≤ (cursorServer rows req).meta.cursor := by
  cases req with
  | none =>
    simp [cursorServer, decide_eq_false_iff_not] at h ⊢
    omega
  | some r =>
    obtain ⟨s, o, a, b, f, l⟩ := r
    cases a <;>
      (simp [cursorServer, decide_eq_false_iff_not] at h ⊢; omega)

theorem cursorServer_terminal {R : Type} (rows : List R) (s o : Option Nat) (c : Nat)
    (h : rows.length ≤ c) :
    (cursorServer rows (some ⟨s, o, some c, none, none, none⟩)).records = []
    ∧ (cursorServer rows (some ⟨s, o, some c, none, none, none⟩)).meta.more = false
    ∧ (cursorServer rows (some ⟨s, o, some c, none, none, none⟩)).meta.cursor = c := by
  have hd : rows.drop c = [] := List.drop_eq_nil_of_le h
  refine ⟨?_, ?_, ?_⟩ <;> simp [cursorServer, hd, decide_eq_false_iff_not]
  omega

/-- Claim C1: a `Page` returned by the legacy `getPaginated` threads its own
cursor into the `after` field of the request `nextPage` issues (and into
`before` for `previousPage`) — it does not restart from the default first
page — and, over a cursor-faithful server, once a page reports
`more = false`, a further `nextPage` call yields an empty page that again
reports `more = false` with the same cursor (so every later `nextPage`
stays empty and terminal). -/
theorem C1_nextPage_threads_cursor {R : Type} (rows : List R)
    (req : Option (LegacyPageReq Nat))
    (h : (legacyGetPaginated (cursorServer rows) req).meta.more = false)
    (size offset : Option Nat) :
    (∀ (κ' R' : Type) (t : LegacyTransport κ' R') (p : LegacyPage κ' R')
        (s o : Option Nat),
      p.nextPage t s o =
          legacyGetPaginated t (some ⟨s, o, some p.meta.cursor, none, none, none⟩)
      ∧ p.previousPage t s o =
          legacyGetPaginated t (some ⟨s, o, none, some p.meta.cursor, none, none⟩))
    ∧ (((legacyGetPaginated (cursorServer rows) req).nextPage (cursorServer rows)
          size offset).records = []
      ∧ ((legacyGetPaginated (cursorServer rows) req).nextPage (cursorServer rows)
          size offset).meta.more = false
      ∧ ((legacyGetPaginated (cursorServer rows) req).nextPage (cursorServer rows)
          size offset).meta.cursor = (legacyGetPaginated (cursorServer rows) req).meta.cursor) := by
  refine ⟨fun κ' R' t p s o => ⟨rfl, rfl⟩, ?_⟩
  have hle := cursorServer_length_le_cursor rows req h
  exact cursorServer_terminal rows size offset ((cursorServer rows req).meta.cursor) hle

/-- Witness for C1: a one-row table read with page size 5 reports
`more = false`; `nextPage` then yields an empty, still-terminal page. -/
theorem C1_nextPage_threads_cursor_witness :
    ((legacyGetPaginated (cursorServer c1Rows) c1Req).meta.more = false)
    ∧ ((legacyGetPaginated (cursorServer c1Rows) c1Req).nextPage (cursorServer c1Rows)
        (some 5) none).records = []
    ∧ ((legacyGetPaginated (cursorServer c1Rows) c1Req).nextPage (cursorServer c1Rows)
        (some 5) none).meta.more = false := by
  refine ⟨by decide, ?_, ?_⟩
  · exact (C1_nextPage_threads_cursor c1Rows c1Req (by decide) (some 5) none).2.1
  · exact (C1_nextPage_threads_cursor c1Rows c1Req (by decide) (some 5) none).2.2.1

/-! ## C7: branch resolution order and exhaustion -/

theorem getBranchLoop_exhausted (memo : Option String) :
    ∀ (strategies : List BranchStrategy) (n : Nat),
      (∀ s ∈ strategies, truthyS (evaluateBranch s) = false) →
      getBranchLoop memo strategies n =
        (Except.error "Unable to resolve branch value", memo, n + strategies.length)
  | [], n, _ => by simp [getBranchLoop]
  | s :: rest, n, h => by
    have hs : truthyS (evaluateBranch s) = false := h s (by simp)
    have ih := getBranchLoop_exhausted memo rest (n + 1) (fun x hx => h x (by simp [hx]))
    rw [getBranchLoop, if_neg (by simp [hs]), ih]
    have harith : n + 1 + rest.length = n + (rest.length + 1) := by omega
    simp [harith]

/-- Claim C7: branch resolution evaluates the strategy list in order and the
first non-empty value wins: over `[undefined, "", resolver -> "main"]` it
yields `"main"`; when every strategy evaluates to an empty value, resolution
fails with the branch-resolution error and the query pipeline issues no
transport request. -/
theorem C7_branch_resolution {R : Type} (strategies : List BranchStrategy)
    (h : ∀ s ∈ strategies, truthyS (evaluateBranch s) = false)
    (t : String → LegacyResp Nat R) :
    (getBranch ⟨none⟩ c7Strategies).1 = Except.ok "main"
    ∧ (getBranch ⟨none⟩ strategies).1 = Except.error "Unable to resolve branch value"
    ∧ legacyQueryWithBranch ⟨none⟩ strategies t =
        (Except.error "Unable to resolve branch value", 0) := by
  have hl := getBranchLoop_exhausted none strategies 0 h
  refine ⟨rfl, ?_, ?_⟩
  · simp [getBranch, truthyS, hl]
  · simp [legacyQueryWithBranch, getBranch, truthyS, hl]

/-- Witness for C7: the concrete all-empty list `[undefined, resolver -> ""]`
fails with the resolution error and issues no request. -/
theorem C7_branch_resolution_witness :
    (getBranch ⟨none⟩ c7Strategies).1 = Except.ok "main"
    ∧ legacyQueryWithBranch ⟨none⟩ c7Empty c7T =
        (Except.error "Unable to resolve branch value", 0) :=
  ⟨(C7_branch_resolution c7Empty (by decide) c7T).1,
    (C7_branch_resolution c7Empty (by decide) c7T).2.2⟩

/-! ## C8: the resolved branch is memoized for the client lifetime -/

theorem getBranchLoop_ok (memo : Option String) :
    ∀ (strategies : List BranchStrategy) (n0 : Nat) (b : String) (m : Option String) (nn : Nat),
      getBranchLoop memo strategies n0 = (Except.ok b, m, nn) →
      truthyS m = true ∧ m.getD "" = b
  | [], n0, b, m, nn => by
    intro h
    simp [getBranchLoop] at h
  | s :: rest, n0, b, m, nn => by
    intro h
    by_cases hs : truthyS (evaluateBranch s) = true
    · rw [getBranchLoop, if_pos (by simp [hs])] at h
      simp only [Prod.mk.injEq, Except.ok.injEq] at h
      obtain ⟨hb, hm, -⟩ := h
      subst hm
      exact ⟨hs, hb⟩
    · rw [getBranchLoop, if_neg (by simp [hs])] at h
      exact getBranchLoop_ok memo rest (n0 + 1) b m nn h

/-- Claim C8: once `getBranch` has successfully resolved a branch value for a
client, the value is memoized in the client's write-once `branch` field: every
later `getBranch` call — with any strategy list whatsoever, even if the
underlying sources changed — returns the cached value, leaves the state
untouched and evaluates zero strategies. -/
theorem C8_branch_memoized (st st' : ClientBranchState)
    (strategies strategies2 : List BranchStrategy) (b : String) (n : Nat)
    (h : getBranch st strategies = (Except.ok b, st', n)) :
    getBranch st' strategies2 = (Except.ok b, st', 0) := by
  unfold getBranch at h
  by_cases h0 : truthyS st.branch = true
  · rw [if_pos h0] at h
    simp only [Prod.mk.injEq, Except.ok.injEq] at h
    obtain ⟨hb, hst, -⟩ := h
    subst hst
    rw [getBranch, if_pos h0, hb]
  · rw [if_neg h0] at h
    rcases hl : getBranchLoop st.branch strategies 0 with ⟨r, m, nn⟩
    rw [hl] at h
    simp only [Prod.mk.injEq] at h
    obtain ⟨hr, hst, -⟩ := h
    subst hr
    obtain ⟨hm, hb⟩ := getBranchLoop_ok st.branch strategies 0 b m nn hl
    rw [getBranch, if_pos (by simpa [← hst] using hm)]
    rw [← hst, hb]

/-- Witness for C8: after resolving `"main"` from a literal strategy, a later
call with a different strategy list returns the memoized `"main"` with zero
strategy evaluations. -/
theorem C8_branch_memoized_witness :
    getBranch ⟨some "main"⟩ c8Strategies2 = (Except.ok "main", ⟨some "main"⟩, 0) :=
  C8_branch_memoized ⟨none⟩ ⟨some "main"⟩ c8Strategies c8Strategies2 "main" 1 rfl

/-! ## C9: create is insert followed by a server-confirmed read -/

/-- Claim C9: `create(object)` performs the insert and then the follow-up read
of the inserted id; when that read returns nothing, `create` fails with the
failed-save application error — which is distinct from every transport
error — even though the insert itself succeeded; when the read returns a
record, that record is returned. -/
theorem C9_create_verified_read {R : Type}
    (readResp : String → Except String (Option R)) (id : String) :
    (readResp id = Except.ok none →
      RestRepository.create (Except.ok id) readResp =
        Except.error (CreateError.failedSave "The server failed to save the record")
      ∧ ∀ msg, CreateError.failedSave "The server failed to save the record" ≠
          CreateError.transport msg)
    ∧ ∀ r : R, readResp id = Except.ok (some r) →
        RestRepository.create (Except.ok id) readResp = Except.ok r := by
  constructor
  · intro h
    refine ⟨by simp [RestRepository.create, h], ?_⟩
    intro msg hcontra
    exact CreateError.noConfusion hcontra
  · intro r h
    simp [RestRepository.create, h]

/-- Witness for C9 at concrete transports: an empty follow-up read raises the
failed-save error, a successful one returns the record read back. -/
theorem C9_create_verified_read_witness :
    RestRepository.create c9Insert c9ReadNone =
      Except.error (CreateError.failedSave "The server failed to save the record")
    ∧ RestRepository.create c9Insert c9ReadSome = Except.ok 7 :=
  ⟨((C9_create_verified_read c9ReadNone "rec1").1 rfl).1,
    (C9_create_verified_read c9ReadSome "rec1").2 7 rfl⟩

/-! ## C10 and C3: record hydration -/

mutual
theorem initFields_noLinkRef : ∀ (links : Links) (tls : List (String × String))
    (fs : JFields), (initFields links tls fs).noLinkRef = true
  | _, _, .nil => by simp [initFields, HFields.noLinkRef]
  | links, tls, .cons k v tl => by
    simp [initFields, HFields.noLinkRef, initField_noLinkRef links tls k v,
      initFields_noLinkRef links tls tl]
theorem initField_noLinkRef : ∀ (links : Links) (tls : List (String × String))
    (k : String) (v : J), (initField links tls k v).noLinkRef = true
  | links, tls, k, v => by
    unfold initField
    cases h : assocLookup tls k with
    | none => simp [HVal.noLinkRef]
    | some linkTable =>
      cases v with
      | jobj vfs =>
        by_cases hid : vfs.hasKey "id" = true
        · simp [hid, HVal.noLinkRef,
            initFields_noLinkRef links (linksFor links linkTable) vfs]
        · simp [hid, JFields.get_eq_none_of_hasKey_eq_false (by simpa using hid),
            truthyJ, HVal.noLinkRef]
      | jnull => simp [HVal.noLinkRef]
      | jbool b => simp [HVal.noLinkRef]
      | jnum n => simp [HVal.noLinkRef]
      | jstr s => simp [HVal.noLinkRef]
      | jarr xs => simp [HVal.noLinkRef]
end

theorem initObject_noLinkRef (links : Links) (table : String) (fields : JFields) :
    (initObject links table fields).noLinkRef = true := by
  simp [initObject, HVal.noLinkRef,
    initFields_noLinkRef links (linksFor links table) fields]

/-- Claim C10: in hydration, a link-typed field whose raw value is an object
is either recursively hydrated (exactly when it has an `id` key — even when
`id` is its only field) or left unchanged; the `else if (id)` branch that
would install a lazy `\x7bid, get\x7d` object requires a truthy `id` without
an `id` key, which is impossible, so no hydrated value ever carries the lazy
accessor. -/
theorem C10_linkRef_branch_unreachable :
    (∀ (links : Links) (table : String) (fields : JFields),
      (initObject links table fields).noLinkRef = true)
    ∧ (∀ (links : Links) (tls : List (String × String)) (k : String)
        (linkTable : String) (vfs : JFields),
        assocLookup tls k = some linkTable →
        initField links tls k (.jobj vfs) =
          if vfs.hasKey "id" then initObject links linkTable vfs
          else .plain (.jobj vfs)) := by
  constructor
  · exact initObject_noLinkRef
  · intro links tls k linkTable vfs h
    by_cases hid : vfs.hasKey "id" = true
    · simp [initField, initObject, h, hid]
    · simp [initField, h, hid,
        JFields.get_eq_none_of_hasKey_eq_false (by simpa using hid), truthyJ]

/-- Witness for C10: the concrete id-only author object is recursively
hydrated (the `if` takes its hydration branch), and the hydrated example row
contains no lazy accessor. -/
theorem C10_linkRef_branch_unreachable_witness :
    initField c3Links [("author", "authors")] "author"
        (.jobj (.cons "id" (.jstr "a1") .nil)) =
      initObject c3Links "authors" (.cons "id" (.jstr "a1") .nil)
    ∧ (initObject c3Links "users" c3Row).noLinkRef = true := by
  constructor
  · have h := C10_linkRef_branch_unreachable.2 c3Links [("author", "authors")]
      "author" "authors" (.cons "id" (.jstr "a1") .nil) (by decide)
    simpa [JFields.hasKey, JFields.get] using h
  · exact C10_linkRef_branch_unreachable.1 c3Links "users" c3Row

/-- Claim C3 counterexample: hydrating the raw row
`\x7bid:"1", xata:\x7bversion:0\x7d, author:\x7bid:"a1"\x7d\x7d` under the
link map `\x7busers:[["author","authors"]]\x7d` does NOT give `author` a lazy
`get` accessor: because the value `\x7bid:"a1"\x7d` has an `id` key, it is
recursively hydrated into a nested record (`noLinkRef` holds of the whole
result), refuting the claim's "author.get is a callable lazy accessor". -/
theorem C3_counterexample :
    initObject c3Links "users" c3Row =
      HVal.record "users"
        (.cons "id" (.plain (.jstr "1"))
          (.cons "xata" (.plain (.jobj (.cons "version" (.jnum 0) .nil)))
            (.cons "author" (.record "authors" (.cons "id" (.plain (.jstr "a1")) .nil)) .nil)))
    ∧ (initObject c3Links "users" c3Row).noLinkRef = true := by
  exact ⟨by decide, by decide⟩

/-- Claim C3 (amended): hydrating the raw row produces a record whose
`author` field is a recursively hydrated nested record of table `authors`
(carrying the bound record methods, not a lazy `get` accessor); its `id` is
`"a1"` and its `name` is undefined — the relation is not followed over the
network, the embedded id-only object is hydrated in place. -/
theorem C3_hydration_scenario :
    (initFields c3Links [("author", "authors")] c3Row).get "author" =
      some (.record "authors" (.cons "id" (.plain (.jstr "a1")) .nil))
    ∧ ((JFields.cons "id" (J.jstr "a1") JFields.nil).get "id" = some (J.jstr "a1"))
    ∧ ((HFields.cons "id" (HVal.plain (J.jstr "a1")) HFields.nil).get "id" =
        some (.plain (.jstr "a1")))
    ∧ ((HFields.cons "id" (HVal.plain (J.jstr "a1")) HFields.nil).get "name" = none) := by
  exact ⟨by decide, by decide, by decide, by decide⟩
